import Mathlib

/-!
Shallow embedding of the netmeta core: the MPLS label-stack validator
(pkg/mpls), the OSPF topology graph (pkg/ospf), the BGP peer-state
registry (pkg/bgp) and the auto-remediation engine (pkg/auto).

External collaborators (the GoBGP session engine, the packet source) are
modelled as explicit oracles passed to each operation: a per-address poll
result for session refresh, and a path-listing / path-deletion outcome for
withdrawals.  Time is a `Nat` tick (Go's zero `time.Time` is `0`).
-/

namespace Netmeta

/-! ## MPLS label-stack validator (pkg/mpls, `Validator`) -/

/-- One decoded MPLS layer as gopacket exposes it (`layers.MPLS`). -/
structure MPLSLayer where
  label : Nat
  bottomOfStack : Bool
  ttl : Nat
  trafficClass : Nat
deriving Repr, DecidableEq

/-- Go `mpls.Label`: one entry of the validated stack. -/
structure Label where
  value : Nat
  bos : Bool
  ttl : Nat
  tc : Nat
deriving Repr, DecidableEq

/-- Go `mpls.LabelStack`: validated stack plus validity flag and error text. -/
structure LabelStack where
  labels : List Label
  valid : Bool
  errMsg : String
deriving Repr, DecidableEq

/-- A decoded packet, reduced to the ordered list of its MPLS layers
(outermost first).  `packet.Layer(layers.LayerTypeMPLS)` in gopacket
returns the first layer of that type, i.e. the head of this list. -/
def layerMPLS (packet : List MPLSLayer) : Option MPLSLayer := packet.head?

/-- The `for current != nil` loop body of `Validator.ValidatePacket`,
with explicit fuel (the Go loop has no structural decrease: its
"next layer" lookup is `packet.Layer(layers.LayerTypeMPLS)` again).
Returns `none` when fuel runs out, otherwise the resulting stack, the
error (if any) and the number of corruption-counter increments. -/
def validateLoop (packet : List MPLSLayer) :
    Nat → MPLSLayer → List Label → Option (LabelStack × Option String × Nat)
  | 0, _, _ => none
  | fuel + 1, current, acc =>
    let label : Label :=
      { value := current.label, bos := current.bottomOfStack,
        ttl := current.ttl, tc := current.trafficClass }
    if label.value < 16 || label.value > 1048575 then
      some ({ labels := acc, valid := false,
              errMsg := "invalid label value: " ++ toString label.value ++
                " (must be 16-1048575)" },
            some ("invalid label value: " ++ toString label.value), 1)
    else if label.ttl = 0 then
      some ({ labels := acc, valid := false, errMsg := "TTL expired" },
            some "TTL expired", 1)
    else
      let acc' := acc ++ [label]
      if label.bos then
        some ({ labels := acc', valid := true, errMsg := "" }, none, 0)
      else
        match layerMPLS packet with
        | none => some ({ labels := acc', valid := true, errMsg := "" }, none, 0)
        | some next => validateLoop packet fuel next acc'

/-- Model of `Validator.ValidatePacket`: result is the (stack-or-nil, error-or-nil)
pair returned by the Go function plus the corruption-counter increment
count; `none` means the loop ran out of fuel (non-termination). -/
def ValidatePacket (packet : List MPLSLayer) (fuel : Nat) :
    Option (Option LabelStack × Option String × Nat) :=
  match layerMPLS packet with
  | none => some (none, some "no MPLS layer found", 0)
  | some first =>
    match validateLoop packet fuel first [] with
    | none => none
    | some (stack, err, c) => some (some stack, err, c)

/-- Position and value of the first out-of-range label in a raw list. -/
def findBadLabel : List Nat → Nat → Option (Nat × Nat)
  | [], _ => none
  | l :: rest, i =>
    if l < 16 || l > 1048575 then some (i, l) else findBadLabel rest (i + 1)

/-- Model of `Validator.ValidateLabelStack`: the error (if any) together with the
number of corruption-counter increments performed by the call. -/
def ValidateLabelStack (labels : List Nat) : Option String × Nat :=
  if labels.isEmpty then (some "empty label stack", 0)
  else
    match findBadLabel labels 0 with
    | some (i, l) =>
      (some ("invalid label value at position " ++ toString i ++ ": " ++
        toString l ++ " (must be 16-1048575)"), 1)
    | none => (none, 0)

/-! ## Remediation event ledger (pkg/auto) -/

/-- Go `auto.RemediationEvent`. -/
structure RemediationEvent where
  timestamp : Nat
  type : String
  target : String
  reason : String
  action : String
  success : Bool
deriving Repr, DecidableEq

/-- Model of `Engine.recordEvent`: append, then keep only the last 1000 events. -/
def recordEvent (events : List RemediationEvent) (event : RemediationEvent) :
    List RemediationEvent :=
  let es := events ++ [event]
  if es.length > 1000 then es.drop (es.length - 1000) else es

/-- The last `n` elements of a list. -/
def lastN (n : Nat) (l : List RemediationEvent) : List RemediationEvent :=
  l.drop (l.length - n)

/-! ## BGP peer-state registry (pkg/bgp, `Monitor`) -/

/-- Go `bgp.PeerState`.  `lastFlapTime = 0` models Go's zero `time.Time`. -/
structure PeerState where
  address : String
  asn : Nat
  state : String
  prefixCount : Int
  flapCount : Nat
  lastFlapTime : Nat
  established : Bool
deriving Repr, DecidableEq

/-- The peer map `map[string]*PeerState`, keyed by `PeerState.address`
(the Go code always stores a peer under its own address). -/
abbrev Monitor := List PeerState

/-- The fresh entry `AddPeer` installs (Go zero values for the
unmentioned fields). -/
def newPeerState (address : String) (asn : Nat) : PeerState :=
  { address := address, asn := asn, state := "Idle", prefixCount := 0,
    flapCount := 0, lastFlapTime := 0, established := false }

/-- Map write `m.peers[address] = peer`: replace the entry under this address, or
insert it if absent. -/
def putPeer : Monitor → PeerState → Monitor
  | [], p => [p]
  | q :: rest, p => if q.address = p.address then p :: rest else q :: putPeer rest p

/-- Map lookup `m.peers[address]`. -/
def getPeerM (m : Monitor) (address : String) : Option PeerState :=
  m.find? (fun p => p.address == address)

/-- Model of `Monitor.AddPeer`: the map is updated before the session-engine call,
so the new entry stays even when the engine rejects the peer.  `engineOk`
is the outcome of `server.AddPeer`. -/
def AddPeer (m : Monitor) (address : String) (asn : Nat) (engineOk : Bool) :
    Monitor × Except String Unit :=
  let m' := putPeer m (newPeerState address asn)
  (m', if engineOk then .ok () else .error ("failed to add peer " ++ address))

/-- Model of `Monitor.GetPeer` (returns a copy; in the pure model the value itself). -/
def GetPeer (m : Monitor) (address : String) : Except String PeerState :=
  match getPeerM m address with
  | none => .error ("peer " ++ address ++ " not found")
  | some p => .ok p

/-- Model of `Monitor.GetAllPeers` (copies of all entries). -/
def GetAllPeers (m : Monitor) : List PeerState := m

/-- What `server.GetPeer` reports for one peer during a refresh poll. -/
structure PollResult where
  established : Bool
  stateLabel : String
  advertised : Int
deriving Repr, DecidableEq

/-- Per-peer body of `Monitor.updatePeerStates`: `none` models a
`server.GetPeer` error (the loop `continue`s, leaving the peer as is). -/
def refreshPeer (now : Nat) (poll : Option PollResult) (p : PeerState) : PeerState :=
  match poll with
  | none => p
  | some r =>
    let p1 :=
      if r.established then
        { p with state := "Established", established := true,
                 prefixCount := r.advertised }
      else
        { p with state := r.stateLabel, established := false }
    if p.established && !p1.established then
      { p1 with flapCount := p1.flapCount + 1, lastFlapTime := now }
    else p1

/-- Model of `Monitor.updatePeerStates`: one 5-second refresh tick over all peers,
with the session engine's answers given by `poll`. -/
def updatePeerStates (m : Monitor) (now : Nat) (poll : String → Option PollResult) :
    Monitor :=
  m.map (fun p => refreshPeer now (poll p.address) p)

/-- The reset `peer.FlapCount = 0` on the entry stored under `a`. -/
def resetFlap : Monitor → String → Monitor
  | [], _ => []
  | p :: rest, a =>
    if p.address = a then { p with flapCount := 0 } :: rest else p :: resetFlap rest a

/-- Model of `Monitor.WithdrawAllPrefixes`.  `listRes` is the outcome of
`server.ListPath` (`ok` carries the streamed paths, identified by index);
`delRes` gives each `server.DeletePath` outcome.  Per-path deletion
errors are skipped by the Go loop (`continue`), so they influence
neither the result nor the state. -/
def WithdrawAllPrefixes (m : Monitor) (address : String)
    (listRes : Except String (List Nat)) (delRes : Nat → Except String Unit) :
    Except String Monitor :=
  match getPeerM m address with
  | none => .error ("peer " ++ address ++ " not found")
  | some _ =>
    match listRes with
    | .error e => .error ("failed to list paths: " ++ e)
    | .ok paths =>
      let _ := paths.map delRes
      .ok (resetFlap m address)

/-- Flap count of the peer stored under `a`, if any. -/
def flapOf (m : Monitor) (a : String) : Option Nat :=
  (getPeerM m a).map (fun p => p.flapCount)

/-- The addresses currently in the registry, in storage order. -/
def addrs (m : Monitor) : List String := m.map (fun p => p.address)

/-! ## Auto-remediation engine (pkg/auto, `Engine`) -/

/-- Go `config.AutoConfig` (the fields the engine reads). -/
structure AutoConfig where
  enabled : Bool
  flapThreshold : Int
  flapWindowSec : Int
deriving Repr, DecidableEq

def exceptOk {ε α : Type} : Except ε α → Bool
  | .ok _ => true
  | .error _ => false

/-- The guard of `Engine.checkAndRemediate` for one peer snapshot:
`flapCount > FlapThreshold`, a non-zero `LastFlapTime`, and
`now.Sub(LastFlapTime) < window` (times in seconds). -/
def flapTriggers (cfg : AutoConfig) (now : Nat) (p : PeerState) : Bool :=
  decide ((p.flapCount : Int) > cfg.flapThreshold) &&
    (p.lastFlapTime != 0) &&
    decide ((now : Int) - (p.lastFlapTime : Int) < cfg.flapWindowSec)

/-- The event built by `Engine.remediateFlap`. -/
def mkFlapEvent (now : Nat) (addr : String) (ok : Bool) : RemediationEvent :=
  { timestamp := now, type := "bgp_flap", target := addr, reason := "flap",
    action := "withdraw_all_prefixes", success := ok }

/-- Model of `Engine.remediateFlap`: withdraw all prefixes for the peer and record
one event whose success flag is the withdrawal outcome. -/
def remediateFlap (m : Monitor) (events : List RemediationEvent)
    (peerAddress : String) (listRes : Except String (List Nat))
    (delRes : Nat → Except String Unit) (now : Nat) :
    Monitor × List RemediationEvent :=
  match WithdrawAllPrefixes m peerAddress listRes delRes with
  | .error _ => (m, recordEvent events (mkFlapEvent now peerAddress false))
  | .ok m' => (m', recordEvent events (mkFlapEvent now peerAddress true))

/-- Model of `Engine.checkAndRemediate`: one 10-second evaluation tick.
`listOracle` gives the `server.ListPath` outcome for each peer address. -/
def checkAndRemediate (cfg : AutoConfig) (m : Monitor)
    (events : List RemediationEvent) (now : Nat)
    (listOracle : String → Except String (List Nat))
    (delRes : Nat → Except String Unit) :
    Monitor × List RemediationEvent :=
  (GetAllPeers m).foldl
    (fun st p =>
      if flapTriggers cfg now p then
        remediateFlap st.1 st.2 p.address (listOracle p.address) delRes now
      else st)
    (m, events)

/-- Model of `Engine.RemediateRPKI`: records one successful `rpki_invalid` event,
never fails (the actual prefix withdrawal is not implemented). -/
def RemediateRPKI (events : List RemediationEvent) (pfx : String) (now : Nat) :
    Except String Unit × List RemediationEvent :=
  (.ok (), recordEvent events
    { timestamp := now, type := "rpki_invalid", target := pfx, reason := "rpki",
      action := "withdraw_prefix", success := true })

/-- Model of `Engine.RemediateOSPFAdjacency`: records one successful
`ospf_adjacency` event, never fails (no interface restart performed). -/
def RemediateOSPFAdjacency (events : List RemediationEvent)
    (interfaceName : String) (now : Nat) :
    Except String Unit × List RemediationEvent :=
  (.ok (), recordEvent events
    { timestamp := now, type := "ospf_adjacency", target := interfaceName,
      reason := "adjacency_down", action := "restart_interface", success := true })

/-- The `manual` event of `Engine.RemediateManual`. -/
def manualEvent (now : Nat) (peer reason : String) (ok : Bool) : RemediationEvent :=
  { timestamp := now, type := "manual", target := peer, reason := reason,
    action := "manual_remediation", success := ok }

/-- Model of `Engine.RemediateManual`: optional withdrawal for `peer`, optional
RPKI path for `pfx`, then the `manual` event. -/
def RemediateManual (m : Monitor) (events : List RemediationEvent)
    (peer pfx reason : String) (listRes : Except String (List Nat))
    (delRes : Nat → Except String Unit) (now : Nat) :
    Except String Unit × Monitor × List RemediationEvent :=
  let step1 : Except String Monitor :=
    if peer = "" then .ok m else WithdrawAllPrefixes m peer listRes delRes
  match step1 with
  | .error e =>
    (.error ("failed to remediate peer " ++ peer ++ ": " ++ e), m,
      recordEvent events (manualEvent now peer reason false))
  | .ok m1 =>
    let step2 : Except String Unit × List RemediationEvent :=
      if pfx = "" then (.ok (), events) else RemediateRPKI events pfx now
    match step2 with
    | (.error e, ev1) =>
      (.error ("failed to remediate prefix " ++ pfx ++ ": " ++ e), m1,
        recordEvent ev1 (manualEvent now peer reason false))
    | (.ok _, ev1) =>
      (.ok (), m1, recordEvent ev1 (manualEvent now peer reason true))

/-- The public registry operations (with their external-collaborator
outcomes), for stating reachability invariants. -/
inductive MonitorOp where
  | addPeer (address : String) (asn : Nat) (engineOk : Bool)
  | refresh (now : Nat) (poll : String → Option PollResult)
  | withdraw (address : String) (listRes : Except String (List Nat))
      (delRes : Nat → Except String Unit)
  | query (address : String)
  | queryAll

/-- State effect of one public operation (queries leave the registry as
is; a failed withdrawal leaves it as is; a failed `AddPeer` has already
replaced the entry). -/
def applyOp (m : Monitor) : MonitorOp → Monitor
  | .addPeer a n ok => (AddPeer m a n ok).1
  | .refresh now poll => updatePeerStates m now poll
  | .withdraw a lr dr =>
    match WithdrawAllPrefixes m a lr dr with
    | .ok m' => m'
    | .error _ => m
  | .query _ => m
  | .queryAll => m

/-! ## OSPF topology graph (pkg/ospf, `Parser`) -/

/-- Go `ospf.Link`. -/
structure Link where
  remoteRouterID : Nat
  cost : Nat
  state : String
deriving Repr, DecidableEq

/-- Go `Topology.Routers : map[RouterID][]Link`, as an association list. -/
abbrev Topology := List (Nat × List Link)

def lookupRouter (t : Topology) (rid : Nat) : Option (List Link) :=
  (t.find? (fun kv => kv.1 == rid)).map (fun kv => kv.2)

/-- Map write `p.topology.Routers[routerID] = links`: replace or insert. -/
def setRouter : Topology → Nat → List Link → Topology
  | [], rid, links => [(rid, links)]
  | kv :: rest, rid, links =>
    if kv.1 = rid then (rid, links) :: rest else kv :: setRouter rest rid links

/-- The `!exists` initialisation: create the router's entry with an empty
link list when it is absent. -/
def ensureRouter (t : Topology) (rid : Nat) : Topology :=
  match lookupRouter t rid with
  | some _ => t
  | none => setRouter t rid []

/-- The OSPF packet kinds `processOSPFPacket` switches on. -/
inductive OSPFKind where
  | hello | databaseDescription | linkStateRequest | linkStateUpdate
  | linkStateAck
deriving Repr, DecidableEq

/-- A decoded OSPF control packet: sending router, kind, and (for LSU
packets) the advertising router of each contained LSA. -/
structure OSPFPacketIn where
  routerID : Nat
  kind : OSPFKind
  lsas : List Nat
deriving Repr, DecidableEq

/-- Body of the LSA loop in the `OSPFLinkStateUpdate` case: builds a link
with remote router `adv`, cost 100 and state "Up", ensures the router's
entry, and appends the link only when no link with that remote router is
already present. -/
def addLSALink (t : Topology) (rid adv : Nat) : Topology :=
  let link : Link := { remoteRouterID := adv, cost := 100, state := "Up" }
  let t1 := ensureRouter t rid
  let links := (lookupRouter t1 rid).getD []
  if links.any (fun l => l.remoteRouterID == adv) then t1
  else setRouter t1 rid (links ++ [link])

/-- Model of `Parser.processOSPFPacket`: LSU packets merge their LSAs; every other
control packet just ensures the sender's entry exists. -/
def processOSPFPacket (t : Topology) (pkt : OSPFPacketIn) : Topology :=
  match pkt.kind with
  | .linkStateUpdate => pkt.lsas.foldl (fun acc adv => addLSALink acc pkt.routerID adv) t
  | _ => ensureRouter t pkt.routerID

/-- Invariant of the topology: no two links of the same router share a
remote router identifier. -/
def NoDupRemotes (t : Topology) : Prop :=
  ∀ kv ∈ t, (kv.2.map (fun l => l.remoteRouterID)).Nodup

/-! ## Specification-side definitions used to state the theorems -/

/-- Number of Established-to-not-Established transitions along a poll
trace, starting from a given established flag (`none` polls are
session-engine errors and leave the flag as it was). -/
def flapIncrements : Bool → List (Nat × Option PollResult) → Nat
  | _, [] => 0
  | est, (_, none) :: rest => flapIncrements est rest
  | est, (_, some r) :: rest =>
    (if est && !r.established then 1 else 0) + flapIncrements r.established rest

/-- The operations that set a peer's flap count to zero: re-adding the
address (`AddPeer` overwrites the entry with a fresh one) and a
withdrawal whose path listing succeeded. -/
def resetsAddr (op : MonitorOp) (a : String) : Bool :=
  match op with
  | .addPeer b _ _ => b == a
  | .withdraw b lr _ => b == a && exceptOk lr
  | _ => false

/-- The events one `RemediateManual` call records, as a function of the
withdrawal outcome and the prefix argument: a failed withdrawal records
only the failed manual event; otherwise the RPKI path (when a prefix is
given) records its own event before the successful manual one. -/
def manualCallEvents (wd : Except String Monitor) (pfx : String)
    (now : Nat) (peer reason : String) : List RemediationEvent :=
  match wd with
  | .error _ => [manualEvent now peer reason false]
  | .ok _ =>
    (if pfx = "" then [] else
      [{ timestamp := now, type := "rpki_invalid", target := pfx,
         reason := "rpki", action := "withdraw_prefix", success := true }]) ++
    [manualEvent now peer reason true]

/-- Whether the topology holds a link from `rid` to remote router `adv`. -/
def hasLink (t : Topology) (rid adv : Nat) : Bool :=
  ((lookupRouter t rid).getD []).any (fun l => l.remoteRouterID == adv)

/-! ## Ledger lemmas -/

theorem recordEvent_eq_lastN (l : List RemediationEvent) (e : RemediationEvent) :
    recordEvent l e = lastN 1000 (l ++ [e]) := by
  simp only [recordEvent, lastN]
  split
  · rfl
  · next h =>
    have h0 : (l ++ [e]).length - 1000 = 0 := by omega
    rw [h0, List.drop_zero]

theorem recordEvent_length_le (l : List RemediationEvent) (e : RemediationEvent) :
    (recordEvent l e).length ≤ 1000 := by
  simp only [recordEvent]
  split
  · next h => simp only [List.length_drop]; omega
  · next h => omega

theorem lastN_lastN_append (n : Nat) (l r : List RemediationEvent) :
    lastN n (lastN n l ++ r) = lastN n (l ++ r) := by
  unfold lastN
  by_cases h : n ≤ l.length
  · have hdrop : (l.drop (l.length - n) ++ r) = (l ++ r).drop (l.length - n) := by
      rw [List.drop_append_of_le_length (by omega)]
    rw [hdrop, List.drop_drop]
    congr 1
    simp [List.length_drop]
    omega
  · have h0 : l.length - n = 0 := by omega
    simp [h0]

theorem foldl_recordEvent_lastN (evs : List RemediationEvent) :
    ∀ init : List RemediationEvent, init.length ≤ 1000 →
      evs.foldl recordEvent init = lastN 1000 (init ++ evs) := by
  induction evs with
  | nil =>
    intro init hinit
    have h0 : init.length - 1000 = 0 := by omega
    simp [lastN, h0]
  | cons e rest ih =>
    intro init hinit
    have hstep : (e :: rest).foldl recordEvent init
        = rest.foldl recordEvent (recordEvent init e) := rfl
    rw [hstep, ih (recordEvent init e) (recordEvent_length_le init e),
      recordEvent_eq_lastN, lastN_lastN_append]
    simp

/-- C4: starting from the empty ledger, any sequence of `recordEvent`
calls leaves exactly the most recent 1000 events, in their original
relative order (FIFO eviction), and the ledger never exceeds 1000
entries. -/
theorem recordEvent_ledger_bound (evs : List RemediationEvent) :
    evs.foldl recordEvent [] = evs.drop (evs.length - 1000) ∧
      (evs.foldl recordEvent []).length ≤ 1000 := by
  have h := foldl_recordEvent_lastN evs [] (by simp)
  simp only [List.nil_append, lastN] at h
  refine ⟨h, ?_⟩
  rw [h]
  simp only [List.length_drop]
  omega

/-- C10: `RemediateRPKI` and `RemediateOSPFAdjacency` always return
success and each appends exactly one event, with success `true` and
types `rpki_invalid` resp. `ospf_adjacency`, regardless of inputs. -/
theorem remediate_rpki_ospf_record_success (events : List RemediationEvent)
    (pfx interfaceName : String) (now : Nat) :
    (RemediateRPKI events pfx now).1 = .ok () ∧
    (RemediateRPKI events pfx now).2 =
      lastN 1000 (events ++
        [{ timestamp := now, type := "rpki_invalid", target := pfx,
           reason := "rpki", action := "withdraw_prefix", success := true }]) ∧
    (RemediateOSPFAdjacency events interfaceName now).1 = .ok () ∧
    (RemediateOSPFAdjacency events interfaceName now).2 =
      lastN 1000 (events ++
        [{ timestamp := now, type := "ospf_adjacency", target := interfaceName,
           reason := "adjacency_down", action := "restart_interface",
           success := true }]) :=
  ⟨rfl, recordEvent_eq_lastN events _, rfl, recordEvent_eq_lastN events _⟩

/-! ## MPLS validator lemmas -/

/-- When the outermost MPLS layer is valid but not bottom-of-stack, the
`ValidatePacket` loop never terminates: its "next layer" lookup
(`packet.Layer(layers.LayerTypeMPLS)`) returns the first MPLS layer
again, so the walk never advances. -/
theorem validateLoop_stuck (packet : List MPLSLayer) (c : MPLSLayer)
    (hhead : packet.head? = some c) (h16 : 16 ≤ c.label)
    (hmax : c.label ≤ 1048575) (httl : c.ttl ≠ 0)
    (hbos : c.bottomOfStack = false) :
    ∀ fuel acc, validateLoop packet fuel c acc = none := by
  intro fuel
  induction fuel with
  | zero => intro acc; rfl
  | succ n ih =>
    intro acc
    simp only [validateLoop, layerMPLS, hhead]
    rw [if_neg (by simp only [Bool.or_eq_true, decide_eq_true_eq, not_or, not_lt]; omega),
      if_neg httl, if_neg (by simp [hbos])]
    exact ih _

/-- C7: the validator does not stop at the first offending label.  On a
packet whose outer label is valid (value 100, TTL 64) and whose second,
bottom-of-stack label has the out-of-range value 5, the claim requires
validation to return the partial stack invalid with an error citing 5
and one corruption increment; the code instead loops forever (for every
fuel bound the loop is still running), because the inner label is never
reached. -/
theorem validatePacket_stuck_before_offending_label :
    ∀ fuel : Nat,
      ValidatePacket
        [{ label := 100, bottomOfStack := false, ttl := 64, trafficClass := 0 },
         { label := 5, bottomOfStack := true, ttl := 64, trafficClass := 0 }]
        fuel = none := by
  intro fuel
  have h := validateLoop_stuck
    [{ label := 100, bottomOfStack := false, ttl := 64, trafficClass := 0 },
     { label := 5, bottomOfStack := true, ttl := 64, trafficClass := 0 }]
    { label := 100, bottomOfStack := false, ttl := 64, trafficClass := 0 }
    rfl (by decide) (by decide) (by decide) rfl fuel []
  unfold ValidatePacket
  dsimp only [layerMPLS, List.head?]
  rw [h]

/-- C8: the walk does not visit each label once nor terminate at the
bottom-of-stack label.  On a packet with two valid labels (outer 100,
not bottom-of-stack; inner 200, bottom-of-stack) the claim requires the
returned stack to be both labels; the code never terminates, because the
"next layer" re-fetch yields the outermost layer again. -/
theorem validatePacket_never_reaches_bottom_of_stack :
    ∀ fuel : Nat,
      ValidatePacket
        [{ label := 100, bottomOfStack := false, ttl := 64, trafficClass := 0 },
         { label := 200, bottomOfStack := true, ttl := 64, trafficClass := 0 }]
        fuel = none := by
  intro fuel
  have h := validateLoop_stuck
    [{ label := 100, bottomOfStack := false, ttl := 64, trafficClass := 0 },
     { label := 200, bottomOfStack := true, ttl := 64, trafficClass := 0 }]
    { label := 100, bottomOfStack := false, ttl := 64, trafficClass := 0 }
    rfl (by decide) (by decide) (by decide) rfl fuel []
  unfold ValidatePacket
  dsimp only [layerMPLS, List.head?]
  rw [h]

/-- A single-label (bottom-of-stack) packet with an in-range value and a
non-zero TTL is returned valid with no corruption increment: the loop
defect is invisible on one-label stacks. -/
theorem validatePacket_single_valid :
    ValidatePacket
      [{ label := 100, bottomOfStack := true, ttl := 64, trafficClass := 0 }] 1 =
      some (some { labels := [{ value := 100, bos := true, ttl := 64, tc := 0 }],
                   valid := true, errMsg := "" }, none, 0) := by
  decide

/-- Support lemma: `ValidateLabelStack` fails with the empty-stack error on no labels,
and cites the position and value of the first out-of-range label,
incrementing the corruption counter exactly once. -/
theorem validateLabelStack_cases :
    ValidateLabelStack [] = (some "empty label stack", 0) ∧
    ValidateLabelStack [100, 7, 3] =
      (some "invalid label value at position 1: 7 (must be 16-1048575)", 1) ∧
    ValidateLabelStack [16, 1048575] = (none, 0) := by
  refine ⟨rfl, ?_, ?_⟩ <;> decide

/-! ## Peer-refresh lemmas -/

theorem refreshPeer_none (now : Nat) (p : PeerState) :
    refreshPeer now none p = p := rfl

theorem refreshPeer_address (now : Nat) (poll : Option PollResult) (p : PeerState) :
    (refreshPeer now poll p).address = p.address := by
  cases poll with
  | none => rfl
  | some r =>
    simp only [refreshPeer]
    cases hr : r.established <;> cases hp : p.established <;> simp [hr, hp]

theorem refreshPeer_established (now : Nat) (r : PollResult) (p : PeerState) :
    (refreshPeer now (some r) p).established = r.established := by
  simp only [refreshPeer]
  cases hr : r.established <;> cases hp : p.established <;> simp [hr, hp]

theorem refreshPeer_flapCount (now : Nat) (r : PollResult) (p : PeerState) :
    (refreshPeer now (some r) p).flapCount =
      p.flapCount + (if p.established && !r.established then 1 else 0) := by
  simp only [refreshPeer]
  cases hr : r.established <;> cases hp : p.established <;> simp [hr, hp]

theorem refreshPeer_lastFlapTime (now : Nat) (r : PollResult) (p : PeerState) :
    (refreshPeer now (some r) p).lastFlapTime =
      (if p.established && !r.established then now else p.lastFlapTime) := by
  simp only [refreshPeer]
  cases hr : r.established <;> cases hp : p.established <;> simp [hr, hp]

theorem getPeerM_updatePeerStates (m : Monitor) (now : Nat)
    (poll : String → Option PollResult) (a : String) :
    getPeerM (updatePeerStates m now poll) a =
      (getPeerM m a).map (refreshPeer now (poll a)) := by
  induction m with
  | nil => rfl
  | cons p rest ih =>
    simp only [updatePeerStates, List.map_cons, getPeerM, List.find?_cons] at *
    by_cases h : p.address = a
    · simp [refreshPeer_address, h]
    · have hb : ((refreshPeer now (poll p.address) p).address == a) = false := by
        simp [refreshPeer_address, h]
      have hb' : (p.address == a) = false := by simp [h]
      rw [hb, hb']
      exact ih

/-- C3: over any sequence of refresh polls, a tracked peer's flap count
grows by exactly the number of Established-to-not-Established
transitions observed for it (so a poll seeing a peer that was already
not established never increments), and a single poll records the poll
time as last-flap time exactly on such a transition. -/
theorem updatePeerStates_flap_transitions (m : Monitor) (a : String)
    (polls : List (Nat × (String → Option PollResult))) :
    (flapOf (polls.foldl (fun mm q => updatePeerStates mm q.1 q.2) m) a =
      (getPeerM m a).map (fun p =>
        p.flapCount + flapIncrements p.established
          (polls.map (fun q => (q.1, q.2 a))))) ∧
    ∀ (p : PeerState) (now : Nat) (r : PollResult),
      (refreshPeer now (some r) p).flapCount =
        p.flapCount + (if p.established && !r.established then 1 else 0) ∧
      (refreshPeer now (some r) p).lastFlapTime =
        (if p.established && !r.established then now else p.lastFlapTime) := by
  constructor
  · induction polls generalizing m with
    | nil =>
      cases h : getPeerM m a <;> simp [flapOf, h, flapIncrements]
    | cons q rest ih =>
      rw [List.foldl_cons, ih (updatePeerStates m q.1 q.2),
        getPeerM_updatePeerStates]
      cases h : getPeerM m a with
      | none => simp
      | some p =>
        simp only [Option.map_some', List.map_cons]
        congr 1
        cases hp : q.2 a with
        | none => simp [refreshPeer_none, flapIncrements]
        | some r =>
          rw [refreshPeer_flapCount, refreshPeer_established]
          simp only [flapIncrements]
          omega
  · intro p now r
    exact ⟨refreshPeer_flapCount now r p, refreshPeer_lastFlapTime now r p⟩

/-! ## Registry map lemmas -/

theorem getPeerM_resetFlap_self (m : Monitor) (a : String) :
    getPeerM (resetFlap m a) a =
      (getPeerM m a).map (fun p => { p with flapCount := 0 }) := by
  induction m with
  | nil => rfl
  | cons p rest ih =>
    simp only [resetFlap, getPeerM, List.find?_cons] at *
    by_cases h : p.address = a
    · simp [h]
    · have hb : (p.address == a) = false := by simp [h]
      simp only [if_neg h, List.find?_cons, hb]
      exact ih

theorem getPeerM_resetFlap_other (m : Monitor) (a b : String) (hab : b ≠ a) :
    getPeerM (resetFlap m a) b = getPeerM m b := by
  induction m with
  | nil => rfl
  | cons p rest ih =>
    simp only [resetFlap]
    by_cases h : p.address = a
    · have hb : (p.address == b) = false := by
        simp only [beq_eq_false_iff_ne, ne_eq]
        intro hc; exact hab (hc ▸ h)
      rw [if_pos h]
      simp only [getPeerM, List.find?_cons]
      have hb1 : (({ p with flapCount := 0 } : PeerState).address == b) = false := hb
      rw [hb1]
    · rw [if_neg h]
      simp only [getPeerM, List.find?_cons] at *
      by_cases h2 : p.address = b
      · simp [h2]
      · have hb2 : (p.address == b) = false := by simp [h2]
        simp only [hb2]
        exact ih

theorem addrs_resetFlap (m : Monitor) (a : String) :
    addrs (resetFlap m a) = addrs m := by
  induction m with
  | nil => rfl
  | cons p rest ih =>
    simp only [resetFlap, addrs] at *
    by_cases h : p.address = a
    · simp [h]
    · simp [h, ih]

theorem getPeerM_putPeer_self (m : Monitor) (p : PeerState) :
    getPeerM (putPeer m p) p.address = some p := by
  induction m with
  | nil => simp [putPeer, getPeerM]
  | cons q rest ih =>
    simp only [putPeer]
    by_cases h : q.address = p.address
    · rw [if_pos h]
      simp [getPeerM]
    · have hb : (q.address == p.address) = false := by simp [h]
      rw [if_neg h]
      simp only [getPeerM, List.find?_cons, hb]
      exact ih

theorem getPeerM_putPeer_other (m : Monitor) (p : PeerState) (b : String)
    (hb : b ≠ p.address) :
    getPeerM (putPeer m p) b = getPeerM m b := by
  induction m with
  | nil =>
    have h : (p.address == b) = false := by
      simp only [beq_eq_false_iff_ne, ne_eq]
      intro hc; exact hb hc.symm
    simp [putPeer, getPeerM, h]
  | cons q rest ih =>
    simp only [putPeer]
    by_cases h : q.address = p.address
    · have h1 : (p.address == b) = false := by
        simp only [beq_eq_false_iff_ne, ne_eq]
        intro hc; exact hb hc.symm
      have h2 : (q.address == b) = false := by
        simp only [beq_eq_false_iff_ne, ne_eq]
        intro hc
        exact hb (hc ▸ h)
      simp [getPeerM, h, h1, h2]
    · simp only [if_neg h, getPeerM, List.find?_cons]
      by_cases h2 : q.address = b
      · simp [h2]
      · have hb2 : (q.address == b) = false := by simp [h2]
        simp only [hb2]
        exact ih

/-- C6 (amended): `WithdrawAllPrefixes` fails with the not-found error
when the address is untracked, fails with the listing error when
`server.ListPath` fails (leaving the registry as it was), and otherwise
returns success with exactly that peer's flap count reset to zero —
independently of the per-path `DeletePath` outcomes, whose errors the
loop skips. -/
theorem withdrawAllPrefixes_spec (m : Monitor) (a : String)
    (lr : Except String (List Nat)) (d d' : Nat → Except String Unit) :
    (WithdrawAllPrefixes m a lr d = WithdrawAllPrefixes m a lr d') ∧
    (getPeerM m a = none →
      WithdrawAllPrefixes m a lr d = .error ("peer " ++ a ++ " not found")) ∧
    (∀ e, getPeerM m a ≠ none → lr = .error e →
      WithdrawAllPrefixes m a lr d = .error ("failed to list paths: " ++ e)) ∧
    (∀ paths, getPeerM m a ≠ none → lr = .ok paths →
      WithdrawAllPrefixes m a lr d = .ok (resetFlap m a)) ∧
    (flapOf (resetFlap m a) a = (flapOf m a).map (fun _ => 0)) ∧
    (∀ b, b ≠ a → getPeerM (resetFlap m a) b = getPeerM m b) := by
  refine ⟨?_, ?_, ?_, ?_, ?_, ?_⟩
  · unfold WithdrawAllPrefixes
    cases getPeerM m a <;> cases lr <;> rfl
  · intro h; unfold WithdrawAllPrefixes; rw [h]
  · intro e h he
    unfold WithdrawAllPrefixes
    cases hg : getPeerM m a with
    | none => exact absurd hg h
    | some p => rw [he]
  · intro paths h hp
    unfold WithdrawAllPrefixes
    cases hg : getPeerM m a with
    | none => exact absurd hg h
    | some p => rw [hp]
  · simp only [flapOf, getPeerM_resetFlap_self, Option.map_map]
    rfl
  · intro b hb
    exact getPeerM_resetFlap_other m a b hb

/-- C6 witness: concrete registry with one tracked peer, exercising the
not-found, listing-failure and success cases of the theorem. -/
theorem withdrawAllPrefixes_spec_witness :
    WithdrawAllPrefixes
      [{ address := "10.0.0.1", asn := 65001, state := "Active", prefixCount := 0,
         flapCount := 5, lastFlapTime := 100, established := false }]
      "10.0.0.2" (.ok [3]) (fun _ => .ok ()) = .error "peer 10.0.0.2 not found" ∧
    WithdrawAllPrefixes
      [{ address := "10.0.0.1", asn := 65001, state := "Active", prefixCount := 0,
         flapCount := 5, lastFlapTime := 100, established := false }]
      "10.0.0.1" (.error "engine down") (fun _ => .ok ()) =
      .error "failed to list paths: engine down" ∧
    WithdrawAllPrefixes
      [{ address := "10.0.0.1", asn := 65001, state := "Active", prefixCount := 0,
         flapCount := 5, lastFlapTime := 100, established := false }]
      "10.0.0.1" (.ok [3]) (fun _ => .ok ()) =
      .ok (resetFlap
        [{ address := "10.0.0.1", asn := 65001, state := "Active", prefixCount := 0,
           flapCount := 5, lastFlapTime := 100, established := false }] "10.0.0.1") :=
  ⟨(withdrawAllPrefixes_spec _ "10.0.0.2" (.ok [3]) (fun _ => .ok ()) (fun _ => .ok ())).2.1
      (by decide),
   (withdrawAllPrefixes_spec _ "10.0.0.1" (.error "engine down") (fun _ => .ok ())
      (fun _ => .ok ())).2.2.1 "engine down" (by decide) rfl,
   (withdrawAllPrefixes_spec _ "10.0.0.1" (.ok [3]) (fun _ => .ok ())
      (fun _ => .ok ())).2.2.2.1 [3] (by decide) rfl⟩

/-- C6 counterexample: every `DeletePath` call fails, yet the function
returns success and resets the flap count — the session engine's
per-path withdrawal errors are not propagated, so the reset does not
happen "exactly when the withdrawal succeeds" in the claim's sense. -/
theorem withdrawAllPrefixes_ignores_delete_errors :
    WithdrawAllPrefixes
      [{ address := "10.0.0.1", asn := 65001, state := "Active", prefixCount := 0,
         flapCount := 5, lastFlapTime := 100, established := false }]
      "10.0.0.1" (.ok [7]) (fun _ => .error "delete refused") =
      .ok [{ address := "10.0.0.1", asn := 65001, state := "Active", prefixCount := 0,
             flapCount := 0, lastFlapTime := 100, established := false }] := by
  rfl

theorem addrs_putPeer (m : Monitor) (p : PeerState) :
    addrs (putPeer m p) =
      if p.address ∈ addrs m then addrs m else addrs m ++ [p.address] := by
  induction m with
  | nil => simp [putPeer, addrs]
  | cons q rest ih =>
    simp only [putPeer]
    by_cases h : q.address = p.address
    · rw [if_pos h]
      have hmem : p.address ∈ addrs (q :: rest) := by
        simp [addrs, h.symm]
      rw [if_pos hmem]
      simp [addrs, h]
    · rw [if_neg h]
      have hne : ¬ p.address = q.address := fun hc => h hc.symm
      by_cases h2 : p.address ∈ addrs rest
      · have hmem : p.address ∈ addrs (q :: rest) := by
          simp only [addrs, List.map_cons, List.mem_cons]
          exact Or.inr h2
        rw [if_pos hmem]
        simp only [addrs, List.map_cons] at *
        rw [ih, if_pos h2]
      · have hmem : p.address ∉ addrs (q :: rest) := by
          simp only [addrs, List.map_cons, List.mem_cons, not_or]
          exact ⟨hne, h2⟩
        rw [if_neg hmem]
        simp only [addrs, List.map_cons] at *
        rw [ih, if_neg h2]
        simp

theorem nodup_addrs_putPeer (m : Monitor) (p : PeerState)
    (h : (addrs m).Nodup) : (addrs (putPeer m p)).Nodup := by
  rw [addrs_putPeer]
  split
  · exact h
  · next hmem =>
    simp only [List.nodup_append, List.nodup_cons, List.nodup_nil]
    exact ⟨h, by simp, by simpa using hmem⟩

theorem addrs_updatePeerStates (m : Monitor) (now : Nat)
    (poll : String → Option PollResult) :
    addrs (updatePeerStates m now poll) = addrs m := by
  induction m with
  | nil => rfl
  | cons p rest ih =>
    simp only [updatePeerStates, addrs, List.map_cons] at *
    rw [refreshPeer_address]
    exact congrArg _ ih

/-- The only successful-withdrawal result is the flap-count reset. -/
theorem withdrawAllPrefixes_ok (m : Monitor) (a : String)
    (lr : Except String (List Nat)) (d : Nat → Except String Unit) (m' : Monitor)
    (hw : WithdrawAllPrefixes m a lr d = .ok m') :
    exceptOk lr = true ∧ m' = resetFlap m a := by
  unfold WithdrawAllPrefixes at hw
  cases hg : getPeerM m a with
  | none => rw [hg] at hw; simp at hw
  | some p =>
    rw [hg] at hw
    cases lr with
    | error e => simp at hw
    | ok paths =>
      simp only [Except.ok.injEq] at hw
      exact ⟨rfl, hw.symm⟩

theorem nodup_addrs_applyOp (m : Monitor) (op : MonitorOp)
    (h : (addrs m).Nodup) : (addrs (applyOp m op)).Nodup := by
  cases op with
  | addPeer b asn ok => exact nodup_addrs_putPeer m _ h
  | refresh now poll => rw [applyOp, addrs_updatePeerStates]; exact h
  | withdraw b lr dr =>
    simp only [applyOp]
    cases hw : WithdrawAllPrefixes m b lr dr with
    | error e => exact h
    | ok m' =>
      obtain ⟨-, hm'⟩ := withdrawAllPrefixes_ok m b lr dr m' hw
      rw [hm', addrs_resetFlap]
      exact h
  | query b => exact h
  | queryAll => exact h

theorem flapOf_applyOp_mono (m : Monitor) (op : MonitorOp) (a : String) (n : Nat)
    (hn : flapOf m a = some n) :
    ∃ k, flapOf (applyOp m op) a = some k ∧
      (n ≤ k ∨ (k = 0 ∧ resetsAddr op a = true)) := by
  cases op with
  | addPeer b asn ok =>
    by_cases hba : b = a
    · refine ⟨0, ?_, Or.inr ⟨rfl, by simp [resetsAddr, hba]⟩⟩
      subst hba
      simp only [applyOp, AddPeer, flapOf]
      have hps : getPeerM (putPeer m (newPeerState b asn)) b
          = some (newPeerState b asn) :=
        getPeerM_putPeer_self m (newPeerState b asn)
      rw [hps]
      rfl
    · refine ⟨n, ?_, Or.inl le_rfl⟩
      simp only [applyOp, AddPeer, flapOf]
      rw [getPeerM_putPeer_other m (newPeerState b asn) a
        (fun hc => hba hc.symm)]
      exact hn
  | refresh now poll =>
    simp only [applyOp, flapOf, getPeerM_updatePeerStates] at *
    cases hg : getPeerM m a with
    | none => simp [hg] at hn
    | some p =>
      simp only [hg, Option.map_some'] at hn ⊢
      cases hp : poll a with
      | none =>
        exact ⟨n, by rw [refreshPeer_none]; exact hn, Or.inl le_rfl⟩
      | some r =>
        have hpn : p.flapCount = n := Option.some.inj hn
        refine ⟨p.flapCount + (if p.established && !r.established then 1 else 0),
          by rw [refreshPeer_flapCount], Or.inl (by omega)⟩
  | withdraw b lr dr =>
    simp only [applyOp]
    cases hw : WithdrawAllPrefixes m b lr dr with
    | error e => exact ⟨n, hn, Or.inl le_rfl⟩
    | ok m' =>
      obtain ⟨hok, hm'⟩ := withdrawAllPrefixes_ok m b lr dr m' hw
      subst hm'
      by_cases hba : b = a
      · subst hba
        refine ⟨0, ?_, Or.inr ⟨rfl, by simp [resetsAddr, hok]⟩⟩
        simp only [flapOf, getPeerM_resetFlap_self] at *
        cases hg : getPeerM m b with
        | none => simp [hg] at hn
        | some p => simp [hg]
      · refine ⟨n, ?_, Or.inl le_rfl⟩
        simp only [flapOf]
        rw [getPeerM_resetFlap_other m b a (fun hc => hba hc.symm)]
        exact hn
  | query b => exact ⟨n, hn, Or.inl le_rfl⟩
  | queryAll => exact ⟨n, hn, Or.inl le_rfl⟩

/-- C5 (amended): every registry state reachable by the public
operations keeps at most one entry per address, and across any single
operation a tracked peer's flap count never decreases except to zero by
an operation that resets it — a withdrawal whose listing succeeded, or
`AddPeer` on the same address, which overwrites the entry with a fresh
zero-count state. -/
theorem monitor_registry_invariants :
    (∀ ops : List MonitorOp, (addrs (ops.foldl applyOp [])).Nodup) ∧
    (∀ (m : Monitor) (op : MonitorOp) (a : String) (n : Nat),
      flapOf m a = some n →
      ∃ k, flapOf (applyOp m op) a = some k ∧
        (n ≤ k ∨ (k = 0 ∧ resetsAddr op a = true))) := by
  constructor
  · have hgen : ∀ (ops : List MonitorOp) (m : Monitor),
        (addrs m).Nodup → (addrs (ops.foldl applyOp m)).Nodup := by
      intro ops
      induction ops with
      | nil => intro m h; exact h
      | cons op rest ih =>
        intro m h
        exact ih (applyOp m op) (nodup_addrs_applyOp m op h)
    intro ops
    exact hgen ops [] (by simp [addrs])
  · exact flapOf_applyOp_mono

/-- C5 witness: a concrete tracked peer, refreshed with a
not-established poll, keeps its flap count. -/
theorem monitor_registry_invariants_witness :
    ∃ k, flapOf
        (applyOp
          [{ address := "10.0.0.1", asn := 65001, state := "Active",
             prefixCount := 0, flapCount := 5, lastFlapTime := 100,
             established := false }]
          (.refresh 7 (fun _ =>
            some { established := false, stateLabel := "Active",
                   advertised := 0 })))
        "10.0.0.1" = some k ∧
      (5 ≤ k ∨ (k = 0 ∧
        resetsAddr (.refresh 7 (fun _ =>
          some { established := false, stateLabel := "Active",
                 advertised := 0 })) "10.0.0.1" = true)) :=
  monitor_registry_invariants.2
    [{ address := "10.0.0.1", asn := 65001, state := "Active",
       prefixCount := 0, flapCount := 5, lastFlapTime := 100,
       established := false }]
    (.refresh 7 (fun _ =>
      some { established := false, stateLabel := "Active", advertised := 0 }))
    "10.0.0.1" 5 rfl

/-- C5 counterexample: a peer flaps once (count 1), then `AddPeer` is
called again for the same address; the stored flap count drops to 0
although no withdrawal ran — `AddPeer` unconditionally overwrites the
map entry with a fresh state before calling the session engine. -/
theorem addPeer_overwrite_resets_flap_count :
    flapOf
      ([MonitorOp.addPeer "10.0.0.1" 65001 true,
        MonitorOp.refresh 1 (fun _ =>
          some { established := true, stateLabel := "Established",
                 advertised := 10 }),
        MonitorOp.refresh 2 (fun _ =>
          some { established := false, stateLabel := "Active",
                 advertised := 0 })].foldl applyOp []) "10.0.0.1" = some 1 ∧
    flapOf
      ([MonitorOp.addPeer "10.0.0.1" 65001 true,
        MonitorOp.refresh 1 (fun _ =>
          some { established := true, stateLabel := "Established",
                 advertised := 10 }),
        MonitorOp.refresh 2 (fun _ =>
          some { established := false, stateLabel := "Active",
                 advertised := 0 }),
        MonitorOp.addPeer "10.0.0.1" 65001 true].foldl applyOp [])
      "10.0.0.1" = some 0 :=
  ⟨rfl, rfl⟩

/-! ## Evaluation-cycle lemmas -/

theorem getPeerM_isSome_of_mem (m : Monitor) (p : PeerState) (hp : p ∈ m) :
    (getPeerM m p.address).isSome := by
  unfold getPeerM
  rw [List.find?_isSome]
  exact ⟨p, hp, by simp⟩

theorem getPeerM_resetFlap_isSome (m : Monitor) (a b : String) :
    (getPeerM (resetFlap m a) b).isSome = (getPeerM m b).isSome := by
  by_cases hab : b = a
  · subst hab
    rw [getPeerM_resetFlap_self]
    cases getPeerM m b <;> rfl
  · rw [getPeerM_resetFlap_other m a b hab]

theorem checkLoop_spec (cfg : AutoConfig) (now : Nat)
    (lo : String → Except String (List Nat)) (d : Nat → Except String Unit) :
    ∀ (ps : List PeerState) (m : Monitor) (led : List RemediationEvent),
      (∀ p ∈ ps, (getPeerM m p.address).isSome) →
      ps.foldl (fun st p =>
          if flapTriggers cfg now p then
            remediateFlap st.1 st.2 p.address (lo p.address) d now
          else st) (m, led) =
        ((ps.filter (flapTriggers cfg now)).foldl
            (fun mm p =>
              if exceptOk (lo p.address) then resetFlap mm p.address else mm) m,
         (ps.filter (flapTriggers cfg now)).foldl
            (fun l p =>
              recordEvent l (mkFlapEvent now p.address (exceptOk (lo p.address))))
            led) := by
  intro ps
  induction ps with
  | nil => intro m led _; rfl
  | cons p rest ih =>
    intro m led hmem
    rw [List.foldl_cons, List.filter_cons]
    cases ht : flapTriggers cfg now p with
    | false =>
      simp only [ht, Bool.false_eq_true, if_false]
      exact ih m led (fun q hq => hmem q (List.mem_cons_of_mem p hq))
    | true =>
      simp only [ht, if_true]
      have hps : (getPeerM m p.address).isSome :=
        hmem p (List.mem_cons_self p rest)
      obtain ⟨q, hq⟩ : ∃ q, getPeerM m p.address = some q := by
        cases hg : getPeerM m p.address with
        | none => rw [hg] at hps; exact absurd hps (by simp)
        | some q => exact ⟨q, rfl⟩
      cases hlo : lo p.address with
      | error e =>
        have hr : remediateFlap m led p.address (Except.error e) d now =
            (m, recordEvent led (mkFlapEvent now p.address false)) := by
          unfold remediateFlap WithdrawAllPrefixes
          rw [hq]
        rw [hr, ih m _ (fun r hr2 => hmem r (List.mem_cons_of_mem p hr2)),
          List.foldl_cons, List.foldl_cons]
        simp [hlo, exceptOk]
      | ok paths =>
        have hr : remediateFlap m led p.address (Except.ok paths) d now =
            (resetFlap m p.address,
              recordEvent led (mkFlapEvent now p.address true)) := by
          unfold remediateFlap WithdrawAllPrefixes
          rw [hq]
        rw [hr, ih (resetFlap m p.address) _ (fun r hr2 => by
            rw [getPeerM_resetFlap_isSome]
            exact hmem r (List.mem_cons_of_mem p hr2)),
          List.foldl_cons, List.foldl_cons]
        simp [hlo, exceptOk]

/-- C1 (amended): one evaluation cycle withdraws all prefixes for, and
records one event for, exactly those peers whose snapshot has
`flapCount > FlapThreshold`, a non-zero last-flap time and
`now - lastFlapTime < window`; each recorded event has type "bgp_flap"
(not "flap" as the spec words it), reason "flap", action
"withdraw_all_prefixes", and success equal to the withdrawal outcome
(the path-listing result for that peer); every other peer contributes no
event, and each triggering peer whose withdrawal succeeded has its flap
count reset. -/
theorem checkAndRemediate_flap_events (cfg : AutoConfig) (m : Monitor)
    (led : List RemediationEvent) (now : Nat)
    (lo : String → Except String (List Nat)) (d : Nat → Except String Unit) :
    checkAndRemediate cfg m led now lo d =
      (((GetAllPeers m).filter (flapTriggers cfg now)).foldl
          (fun mm p =>
            if exceptOk (lo p.address) then resetFlap mm p.address else mm) m,
       ((GetAllPeers m).filter (flapTriggers cfg now)).foldl
          (fun l p =>
            recordEvent l (mkFlapEvent now p.address (exceptOk (lo p.address))))
          led) := by
  unfold checkAndRemediate
  exact checkLoop_spec cfg now lo d (GetAllPeers m) m led
    (fun p hp => getPeerM_isSome_of_mem m p hp)

/-- C1 counterexample: a peer (flap count 4 > threshold 3, last flap 100
seconds before `now`, window 300) triggers remediation, and the single
recorded event has type "bgp_flap"; no event with the claimed type
"flap" is ever recorded. -/
theorem checkAndRemediate_event_type_not_flap :
    (checkAndRemediate
        { enabled := true, flapThreshold := 3, flapWindowSec := 300 }
        [{ address := "10.0.0.1", asn := 65001, state := "Active",
           prefixCount := 0, flapCount := 4, lastFlapTime := 100,
           established := false }]
        [] 200 (fun _ => .ok []) (fun _ => .ok ())).2 =
      [{ timestamp := 200, type := "bgp_flap", target := "10.0.0.1",
         reason := "flap", action := "withdraw_all_prefixes",
         success := true }] ∧
    ((checkAndRemediate
        { enabled := true, flapThreshold := 3, flapWindowSec := 300 }
        [{ address := "10.0.0.1", asn := 65001, state := "Active",
           prefixCount := 0, flapCount := 4, lastFlapTime := 100,
           established := false }]
        [] 200 (fun _ => .ok []) (fun _ => .ok ())).2.all
      (fun ev => ev.type != "flap")) = true :=
  ⟨rfl, rfl⟩

/-- C2 (amended): `RemediateManual` records exactly one event of type
"manual" per call, whose success flag is the conjunction of the
sub-operation outcomes, and the call's error status equals the
withdrawal's; but when a prefix is given and the withdrawal did not
fail, the RPKI path records its own "rpki_invalid" event first, so the
call appends two ledger events, not one. -/
theorem remediateManual_ledger_spec (m : Monitor)
    (events : List RemediationEvent) (peer pfx reason : String)
    (lr : Except String (List Nat)) (d : Nat → Except String Unit) (now : Nat) :
    (RemediateManual m events peer pfx reason lr d now).2.2 =
      (manualCallEvents
          (if peer = "" then Except.ok m else WithdrawAllPrefixes m peer lr d)
          pfx now peer reason).foldl recordEvent events ∧
    exceptOk (RemediateManual m events peer pfx reason lr d now).1 =
      exceptOk
        (if peer = "" then Except.ok m else WithdrawAllPrefixes m peer lr d) := by
  unfold RemediateManual
  cases hwd : (if peer = "" then Except.ok m else WithdrawAllPrefixes m peer lr d) with
  | error e => simp [manualCallEvents, exceptOk]
  | ok m1 =>
    by_cases hpfx : pfx = ""
    · simp [hpfx, manualCallEvents, exceptOk]
    · simp [hpfx, manualCallEvents, exceptOk, RemediateRPKI]

/-- C2 counterexample: a call with no peer and a non-empty prefix
succeeds but appends two ledger events (the RPKI event and the manual
event), refuting "exactly one ledger event is recorded for the call". -/
theorem remediateManual_records_two_events :
    (RemediateManual [] [] "" "203.0.113.0/24" "test" (.ok [])
        (fun _ => .ok ()) 5).2.2.length = 2 ∧
    (RemediateManual [] [] "" "203.0.113.0/24" "test" (.ok [])
        (fun _ => .ok ()) 5).1 = .ok () :=
  ⟨rfl, rfl⟩

/-! ## Topology lemmas -/

theorem lookup_setRouter_self (t : Topology) (rid : Nat) (v : List Link) :
    lookupRouter (setRouter t rid v) rid = some v := by
  induction t with
  | nil => simp [setRouter, lookupRouter]
  | cons kv rest ih =>
    simp only [setRouter]
    by_cases h : kv.1 = rid
    · rw [if_pos h]
      simp [lookupRouter]
    · have hb : (kv.1 == rid) = false := by simp [h]
      rw [if_neg h]
      simp only [lookupRouter, List.find?_cons, hb]
      exact ih

theorem lookup_setRouter_other (t : Topology) (rid rid' : Nat) (v : List Link)
    (h : rid ≠ rid') :
    lookupRouter (setRouter t rid' v) rid = lookupRouter t rid := by
  induction t with
  | nil =>
    have hb : (rid' == rid) = false := by
      simp only [beq_eq_false_iff_ne, ne_eq]
      intro hc
      exact h hc.symm
    simp [setRouter, lookupRouter, hb]
  | cons kv rest ih =>
    simp only [setRouter]
    by_cases hk : kv.1 = rid'
    · rw [if_pos hk]
      have hb1 : (rid' == rid) = false := by
        simp only [beq_eq_false_iff_ne, ne_eq]
        intro hc; exact h hc.symm
      have hb2 : (kv.1 == rid) = false := by
        simp only [beq_eq_false_iff_ne, ne_eq]
        intro hc; exact h ((hk ▸ hc : rid' = rid)).symm
      simp [lookupRouter, List.find?_cons, hb1, hb2]
    · rw [if_neg hk]
      simp only [lookupRouter, List.find?_cons] at *
      by_cases h2 : kv.1 = rid
      · simp [h2]
      · have hb2 : (kv.1 == rid) = false := by simp [h2]
        simp only [hb2]
        exact ih

theorem lookup_ensure_self (t : Topology) (rid : Nat) :
    lookupRouter (ensureRouter t rid) rid =
      some ((lookupRouter t rid).getD []) := by
  unfold ensureRouter
  cases h : lookupRouter t rid with
  | none => rw [lookup_setRouter_self]; rfl
  | some l => rw [h]; rfl

theorem lookup_ensure_other (t : Topology) (rid rid' : Nat) (h : rid ≠ rid') :
    lookupRouter (ensureRouter t rid') rid = lookupRouter t rid := by
  unfold ensureRouter
  cases hl : lookupRouter t rid' with
  | none => exact lookup_setRouter_other t rid rid' [] h
  | some l => rfl

theorem ensure_of_some (t : Topology) (rid : Nat) (l : List Link)
    (h : lookupRouter t rid = some l) : ensureRouter t rid = t := by
  unfold ensureRouter
  rw [h]

theorem hasLink_lookup (t : Topology) (rid a : Nat) (h : hasLink t rid a = true) :
    ∃ l, lookupRouter t rid = some l ∧
      l.any (fun x => x.remoteRouterID == a) = true := by
  unfold hasLink at h
  cases hl : lookupRouter t rid with
  | none => rw [hl] at h; simp at h
  | some l => rw [hl] at h; exact ⟨l, rfl, h⟩

theorem addLSALink_of_hasLink (t : Topology) (rid a : Nat)
    (h : hasLink t rid a = true) : addLSALink t rid a = t := by
  obtain ⟨l, hl, hany⟩ := hasLink_lookup t rid a h
  dsimp only [addLSALink]
  rw [ensure_of_some t rid l hl, hl]
  simp only [Option.getD_some]
  rw [if_pos hany]

theorem lookup_addLSALink_other (t : Topology) (rid rid' b : Nat)
    (h : rid ≠ rid') :
    lookupRouter (addLSALink t rid' b) rid = lookupRouter t rid := by
  dsimp only [addLSALink]
  split
  · exact lookup_ensure_other t rid rid' h
  · rw [lookup_setRouter_other _ _ _ _ h, lookup_ensure_other t rid rid' h]

theorem hasLink_addLSALink_self (t : Topology) (rid a : Nat) :
    hasLink (addLSALink t rid a) rid a = true := by
  cases hh : hasLink t rid a with
  | true => rw [addLSALink_of_hasLink t rid a hh]; exact hh
  | false =>
    dsimp only [addLSALink]
    have hlinks : lookupRouter (ensureRouter t rid) rid =
        some ((lookupRouter t rid).getD []) := lookup_ensure_self t rid
    rw [hlinks]
    simp only [Option.getD_some]
    have hany : ((lookupRouter t rid).getD []).any
        (fun x => x.remoteRouterID == a) = false := hh
    rw [if_neg (by simp [hany])]
    unfold hasLink
    rw [lookup_setRouter_self]
    simp

theorem hasLink_addLSALink_mono (t : Topology) (rid rid' a b : Nat)
    (h : hasLink t rid a = true) :
    hasLink (addLSALink t rid' b) rid a = true := by
  by_cases hrr : rid = rid'
  · subst hrr
    obtain ⟨l, hl, hany⟩ := hasLink_lookup t rid a h
    dsimp only [addLSALink]
    rw [ensure_of_some t rid l hl, hl]
    simp only [Option.getD_some]
    split
    · exact h
    · unfold hasLink
      rw [lookup_setRouter_self]
      simp only [Option.getD_some, List.any_append]
      rw [hany]
      rfl
  · unfold hasLink
    rw [lookup_addLSALink_other t rid rid' b hrr]
    exact h

theorem hasLink_foldl_mono (rid' : Nat) (lsas : List Nat) :
    ∀ (t : Topology) (rid a : Nat), hasLink t rid a = true →
      hasLink (lsas.foldl (fun acc adv => addLSALink acc rid' adv) t) rid a
        = true := by
  induction lsas with
  | nil => intro t rid a h; exact h
  | cons c rest ih =>
    intro t rid a h
    rw [List.foldl_cons]
    exact ih _ rid a (hasLink_addLSALink_mono t rid rid' a c h)

theorem hasLink_foldl_mem (rid : Nat) (lsas : List Nat) :
    ∀ (t : Topology) (a : Nat), a ∈ lsas →
      hasLink (lsas.foldl (fun acc adv => addLSALink acc rid adv) t) rid a
        = true := by
  induction lsas with
  | nil => intro t a h; exact absurd h (List.not_mem_nil a)
  | cons c rest ih =>
    intro t a h
    rw [List.foldl_cons]
    cases List.mem_cons.1 h with
    | inl hc =>
      subst hc
      exact hasLink_foldl_mono rid rest _ rid a
        (hasLink_addLSALink_self t rid a)
    | inr hr => exact ih _ a hr

theorem foldl_addLSALink_id (rid : Nat) (lsas : List Nat) :
    ∀ t : Topology, (∀ a ∈ lsas, hasLink t rid a = true) →
      lsas.foldl (fun acc adv => addLSALink acc rid adv) t = t := by
  induction lsas with
  | nil => intro t _; rfl
  | cons c rest ih =>
    intro t h
    rw [List.foldl_cons, addLSALink_of_hasLink t rid c
      (h c (List.mem_cons_self c rest))]
    exact ih t (fun a ha => h a (List.mem_cons_of_mem c ha))

theorem ensureRouter_idem (t : Topology) (rid : Nat) :
    ensureRouter (ensureRouter t rid) rid = ensureRouter t rid :=
  ensure_of_some _ rid _ (lookup_ensure_self t rid)

theorem mem_setRouter (t : Topology) (rid : Nat) (v : List Link)
    (kv : Nat × List Link) (h : kv ∈ setRouter t rid v) :
    kv = (rid, v) ∨ kv ∈ t := by
  induction t with
  | nil => simpa [setRouter] using h
  | cons q rest ih =>
    simp only [setRouter] at h
    by_cases hq : q.1 = rid
    · rw [if_pos hq] at h
      cases List.mem_cons.1 h with
      | inl h1 => exact Or.inl h1
      | inr h2 => exact Or.inr (List.mem_cons_of_mem q h2)
    · rw [if_neg hq] at h
      cases List.mem_cons.1 h with
      | inl h1 => exact Or.inr (h1 ▸ List.mem_cons_self q rest)
      | inr h2 =>
        cases ih h2 with
        | inl h3 => exact Or.inl h3
        | inr h4 => exact Or.inr (List.mem_cons_of_mem q h4)

theorem lookup_mem (t : Topology) (rid : Nat) (l : List Link)
    (h : lookupRouter t rid = some l) : ∃ k, (k, l) ∈ t := by
  unfold lookupRouter at h
  cases hf : t.find? (fun kv => kv.1 == rid) with
  | none => rw [hf] at h; simp at h
  | some kv =>
    rw [hf] at h
    refine ⟨kv.1, ?_⟩
    have hm : kv ∈ t := List.mem_of_find?_eq_some hf
    have : kv.2 = l := by simpa using h
    rw [← this]
    exact hm

theorem noDupRemotes_ensure (t : Topology) (rid : Nat)
    (h : NoDupRemotes t) : NoDupRemotes (ensureRouter t rid) := by
  unfold ensureRouter
  cases hl : lookupRouter t rid with
  | some l => exact h
  | none =>
    intro kv hkv
    cases mem_setRouter t rid [] kv hkv with
    | inl h1 => rw [h1]; simp
    | inr h2 => exact h kv h2

theorem noDupRemotes_addLSALink (t : Topology) (rid adv : Nat)
    (h : NoDupRemotes t) : NoDupRemotes (addLSALink t rid adv) := by
  dsimp only [addLSALink]
  rw [lookup_ensure_self t rid]
  simp only [Option.getD_some]
  have hens : NoDupRemotes (ensureRouter t rid) := noDupRemotes_ensure t rid h
  split
  · exact hens
  · next hany =>
    intro kv hkv
    cases mem_setRouter _ rid _ kv hkv with
    | inr h2 => exact hens kv h2
    | inl h1 =>
      rw [h1]
      simp only [List.map_append, List.map_cons, List.map_nil]
      rw [List.nodup_append]
      refine ⟨?_, by simp, ?_⟩
      · obtain ⟨k, hk⟩ := lookup_mem (ensureRouter t rid) rid _
          (lookup_ensure_self t rid)
        exact hens (k, _) hk
      · intro x hx
        simp only [List.mem_singleton]
        intro hc
        subst hc
        apply hany
        obtain ⟨lnk, hlnk, hlr⟩ := List.mem_map.1 hx
        exact List.any_eq_true.2 ⟨lnk, hlnk, by simp [hlr]⟩

theorem noDupRemotes_process (t : Topology) (pkt : OSPFPacketIn)
    (h : NoDupRemotes t) : NoDupRemotes (processOSPFPacket t pkt) := by
  unfold processOSPFPacket
  cases pkt.kind with
  | linkStateUpdate =>
    have hgen : ∀ (lsas : List Nat) (t : Topology), NoDupRemotes t →
        NoDupRemotes (lsas.foldl (fun acc adv => addLSALink acc pkt.routerID adv) t) := by
      intro lsas
      induction lsas with
      | nil => intro t h; exact h
      | cons c rest ih =>
        intro t h
        rw [List.foldl_cons]
        exact ih _ (noDupRemotes_addLSALink t pkt.routerID c h)
    exact hgen pkt.lsas t h
  | hello => exact noDupRemotes_ensure t pkt.routerID h
  | databaseDescription => exact noDupRemotes_ensure t pkt.routerID h
  | linkStateRequest => exact noDupRemotes_ensure t pkt.routerID h
  | linkStateAck => exact noDupRemotes_ensure t pkt.routerID h

/-- C9: topology merging is idempotent (re-processing any packet leaves
the topology unchanged), merging advertisements for two different remote
routers into a fresh router entry yields exactly the two distinct links,
and every reachable topology has no two links of the same router sharing
a remote router identifier. -/
theorem topology_merge_idempotent_dedup :
    (∀ (t : Topology) (pkt : OSPFPacketIn),
      processOSPFPacket (processOSPFPacket t pkt) pkt = processOSPFPacket t pkt) ∧
    (∀ rid a b : Nat, a ≠ b →
      lookupRouter
        (processOSPFPacket []
          { routerID := rid, kind := .linkStateUpdate, lsas := [a, b] }) rid =
        some [{ remoteRouterID := a, cost := 100, state := "Up" },
              { remoteRouterID := b, cost := 100, state := "Up" }]) ∧
    (∀ pkts : List OSPFPacketIn,
      NoDupRemotes (pkts.foldl processOSPFPacket [])) := by
  refine ⟨?_, ?_, ?_⟩
  · intro t pkt
    unfold processOSPFPacket
    cases pkt.kind with
    | linkStateUpdate =>
      exact foldl_addLSALink_id pkt.routerID pkt.lsas _
        (fun a ha => hasLink_foldl_mem pkt.routerID pkt.lsas t a ha)
    | hello => exact ensureRouter_idem t pkt.routerID
    | databaseDescription => exact ensureRouter_idem t pkt.routerID
    | linkStateRequest => exact ensureRouter_idem t pkt.routerID
    | linkStateAck => exact ensureRouter_idem t pkt.routerID
  · intro rid a b hab
    have hba : (a == b) = false := by simp [hab]
    simp [processOSPFPacket, addLSALink, ensureRouter, lookupRouter, setRouter,
      hasLink, hba, hab]
  · intro pkts
    have hgen : ∀ (ps : List OSPFPacketIn) (t : Topology), NoDupRemotes t →
        NoDupRemotes (ps.foldl processOSPFPacket t) := by
      intro ps
      induction ps with
      | nil => intro t h; exact h
      | cons q rest ih =>
        intro t h
        rw [List.foldl_cons]
        exact ih _ (noDupRemotes_process t q h)
    exact hgen pkts [] (by intro kv hkv; simp at hkv)

/-- C9 witness: merging LSAs for remote routers 2 and 3 into router 1 of
the empty topology yields exactly the two links. -/
theorem topology_merge_idempotent_dedup_witness :
    lookupRouter
      (processOSPFPacket []
        { routerID := 1, kind := .linkStateUpdate, lsas := [2, 3] }) 1 =
      some [{ remoteRouterID := 2, cost := 100, state := "Up" },
            { remoteRouterID := 3, cost := 100, state := "Up" }] :=
  topology_merge_idempotent_dedup.2.1 1 2 3 (by decide)

end Netmeta
